import Mathlib

/-!
Verification of the bulk image-transfer and catalog-export services of the
`bazarchic_db_tool_web` repository (`services/cloudinary_service.py`,
`services/database_service.py`, `routes/cloudinary.py`).

The Python code is shallowly embedded: external collaborators (the Dropbox
listing API, the Cloudinary upload API, the MySQL catalog store, the local
filesystem) are passed in as explicit values or oracle functions, and the
thread-pool `as_completed` loop is modelled as a fold over an arbitrary
completion order (a permutation of the enumerated items) — each iteration of
that loop holds the single `stats_lock` while it mutates the shared stats
dictionary, so the loop body is atomic with respect to the stats, which the
sequential fold models faithfully.
-/

/- ------------------------------------------------------------------
   Python string primitives used by the services, modelled on `List Char`
   so that every operation is structurally recursive and executable.
   ------------------------------------------------------------------ -/

/-- The whitespace characters recognised by Python's `str.split()` /
`str.strip()` over the character repertoire that occurs in this code base
(ASCII whitespace plus NEL and NBSP). -/
def isPySpace (c : Char) : Bool :=
  c == ' ' || c == '\t' || c == '\n' || c == '\r' || c == '\x0b' || c == '\x0c' ||
  c == '\u0085' || c == '\u00A0'

/-- ASCII lowercasing, as Python's `str.lower()` behaves on the ASCII
codes / file extensions this repository compares. -/
def strLower (s : String) : String :=
  ⟨s.toList.map Char.toLower⟩

/-- Does `pat` occur at the head of the list? -/
def leadsMatch : List Char → List Char → Bool
  | [], _ => true
  | _ :: _, [] => false
  | a :: as, b :: bs => a == b && leadsMatch as bs

/-- Does `pat` occur anywhere inside `l`?  Python's `pat in s`. -/
def occursWithin (pat : List Char) : List Char → Bool
  | [] => pat.isEmpty
  | c :: cs => leadsMatch pat (c :: cs) || occursWithin pat cs

/-- Python's `needle in hay` on strings. -/
def pyIn (needle hay : String) : Bool :=
  occursWithin needle.toList hay.toList

/-- One pass of Python's `str.replace`: replace every non-overlapping
occurrence of `pat` (nonempty), scanning left to right.  `fuel` bounds the
recursion; it is instantiated with the length of the subject, which is
sufficient because every step consumes at least one character. -/
def replaceAux (pat repl : List Char) : Nat → List Char → List Char
  | _, [] => []
  | 0, l => l
  | fuel + 1, c :: cs =>
    if leadsMatch pat (c :: cs) then
      repl ++ replaceAux pat repl fuel (List.drop (pat.length - 1) cs)
    else
      c :: replaceAux pat repl fuel cs

/-- Python's `s.replace(pat, repl)` (for the nonempty patterns used in the
repository; Python's behaviour on an empty pattern is not exercised). -/
def py_replace (s pat repl : String) : String :=
  if pat.toList.isEmpty then s
  else ⟨replaceAux pat.toList repl.toList s.toList.length s.toList⟩

/-- Python's `s.strip()` (no argument): drop leading and trailing
whitespace. -/
def py_strip (s : String) : String :=
  ⟨((s.toList.dropWhile isPySpace).reverse.dropWhile isPySpace).reverse⟩

/-- Python's `s.split()` (no argument): the maximal runs of non-whitespace
characters, in order.  The accumulator carries the current word reversed. -/
def splitWsAux : List Char → List Char → List (List Char)
  | [], acc => if acc.isEmpty then [] else [acc.reverse]
  | c :: cs, acc =>
    if isPySpace c then
      if acc.isEmpty then splitWsAux cs [] else acc.reverse :: splitWsAux cs []
    else
      splitWsAux cs (c :: acc)

/-- Python's `' '.join(words)`. -/
def joinSpace : List (List Char) → List Char
  | [] => []
  | [w] => w
  | w :: ws => w ++ ' ' :: joinSpace ws

/-- After an opening `<`, consume one or more non-`>` characters up to and
including the next `>`; `none` when the regex `<[^>]+>` does not match
here. -/
def skipToGt : List Char → Option (List Char)
  | [] => none
  | c :: cs => if c == '>' then some cs else skipToGt cs

/-- The remainder after a `<[^>]+>` match starting at `<`, whose body is the
argument (the characters after the `<`). -/
def tagRest : List Char → Option (List Char)
  | [] => none
  | c :: cs => if c == '>' then none else skipToGt cs

/-- `re.sub(r'<[^>]+>', '', text)`: delete every leftmost non-overlapping
HTML-tag match.  `fuel` bounds the recursion; instantiated with the input
length, which suffices because every step consumes at least one
character. -/
def stripTagsAux : Nat → List Char → List Char
  | _, [] => []
  | 0, l => l
  | fuel + 1, c :: cs =>
    if c == '<' then
      match tagRest cs with
      | some rest => stripTagsAux fuel rest
      | none => c :: stripTagsAux fuel cs
    else
      c :: stripTagsAux fuel cs

def strip_tags (s : String) : String :=
  ⟨stripTagsAux s.toList.length s.toList⟩

/-- Models Python's `html.unescape` on the named entities that occur in the
exported product descriptions (`&lt; &gt; &quot; &#39; &nbsp; &amp;`, the
ampersand decoded last so that it cannot fabricate further entities); the
full entity table lives in the Python standard library, not in this
repository. -/
def html_unescape (s : String) : String :=
  py_replace (py_replace (py_replace (py_replace (py_replace
    (py_replace s "&lt;" "<") "&gt;" ">") "&quot;" "\"") "&#39;" "'")
    "&nbsp;" "\u00A0") "&amp;" "&"

/- ------------------------------------------------------------------
   `database_service.clean_html`
   ------------------------------------------------------------------ -/

/-- `clean_html` of `services/database_service.py`: `None`/empty/whitespace
input gives `''`; otherwise strip HTML tags, decode entities, then
`' '.join(text.split())` followed by a final `strip()`. -/
def clean_html (text : Option String) : String :=
  match text with
  | none => ""
  | some s =>
    if s = "" ∨ py_strip s = "" then ""
    else
      let noTags := strip_tags s
      let unescaped := html_unescape noTags
      let joined := joinSpace (splitWsAux unescaped.toList [])
      py_strip ⟨joined⟩

/- ------------------------------------------------------------------
   `services/cloudinary_service.py`: data model of the transfer engine
   ------------------------------------------------------------------ -/

/-- One per-item result dict (`local_filename`, `cloudinary_url`, `status`,
`error`) as built by `_upload_single_file` / `_upload_from_dropbox_url`. -/
structure TransferOutcome where
  local_filename : String
  cloudinary_url : String
  status : String
  error : Option String
deriving DecidableEq

/-- The shared `self.upload_stats` dictionary. -/
structure TransferStats where
  total : Nat
  successful : Nat
  failed : Nat
  errors : List (Option String)
deriving DecidableEq

/-- `upload_stats` as `__init__` leaves it (also what the early-return paths
leave untouched). -/
def initStats : TransferStats := ⟨0, 0, 0, []⟩

/-- The `Reset stats` block at batch start: `total` is the number of
enumerated items, the counters and the error sample list are cleared. -/
def resetStats (n : Nat) : TransferStats := ⟨n, 0, 0, []⟩

/-- The body of the `as_completed` loop, executed under `stats_lock`:
bump `successful` or `failed` and sample the error while fewer than 10
samples are held. -/
def updateStats (s : TransferStats) (o : TransferOutcome) : TransferStats :=
  if o.status = "success" then
    { s with successful := s.successful + 1 }
  else
    { s with failed := s.failed + 1,
             errors := if s.errors.length < 10 then s.errors ++ [o.error] else s.errors }

/-- The `for future in as_completed(futures)` loop: the items are handed to
the loop in completion order (`order`), each yields exactly one outcome
(`work` is the worker function, which never raises — see
`upload_single_file`), the outcome is appended to `results` and the stats
are updated under the lock. -/
def runCompletionLoop (work : α → TransferOutcome) :
    List α → TransferStats → List TransferOutcome × TransferStats
  | [], s => ([], s)
  | x :: xs, s =>
    let o := work x
    let (rest, s') := runCompletionLoop work xs (updateStats s o)
    (o :: rest, s')

/- ------------------------------------------------------------------
   Source enumeration
   ------------------------------------------------------------------ -/

/-- `CloudinaryService.SUPPORTED_EXTENSIONS`. -/
def supportedExtensions : List String :=
  [".jpg", ".jpeg", ".png", ".gif", ".bmp", ".webp", ".svg"]

/-- `pathlib.PurePath.suffix`: the index of the last dot of the name. -/
def lastDotPos (cs : List Char) : Option Nat :=
  match cs.reverse.findIdx? (fun c => c == '.') with
  | none => none
  | some k => some (cs.length - 1 - k)

/-- `pathlib.Path(name).suffix`: the final `.ext` when the last dot sits
strictly inside the name (CPython: `0 < i < len(name) - 1`), else `''`. -/
def path_suffix (name : String) : String :=
  match lastDotPos name.toList with
  | none => ""
  | some i =>
    if 0 < i ∧ i < name.toList.length - 1 then ⟨name.toList.drop i⟩ else ""

/-- `pathlib.Path(name).stem`: the name with `path_suffix` removed. -/
def path_stem (name : String) : String :=
  match lastDotPos name.toList with
  | none => name
  | some i =>
    if 0 < i ∧ i < name.toList.length - 1 then ⟨name.toList.take i⟩ else name

/-- One entry of a local directory listing (`folder_path.iterdir()`):
its name and whether `f.is_file()` holds. -/
structure FileEntry where
  name : String
  isFile : Bool
deriving DecidableEq

/-- The `image_files` list comprehension of `upload_from_local`: regular
files whose lowercased suffix is a supported image extension, taken from
the immediate children of the folder (non-recursive). -/
def image_files_local (entries : List FileEntry) : List FileEntry :=
  entries.filter (fun f =>
    f.isFile && supportedExtensions.contains (strLower (path_suffix f.name)))

/-- One Dropbox listing entry: its name and whether it is a
`dropbox.files.FileMetadata` (as opposed to a folder or deletion entry). -/
structure DropboxEntry where
  name : String
  isFile : Bool
deriving DecidableEq

/-- One response of `files_list_folder` / `files_list_folder_continue`. -/
structure ListFolderPage where
  entries : List DropboxEntry
  has_more : Bool
deriving DecidableEq

/-- The `image_files` filter of `upload_from_dropbox`: the code calls
`files_list_folder` once and filters `result.entries`; it never follows
`has_more`/`cursor`, so only the first page is enumerated.  `pages` is the
full sequence of pages the Dropbox API would serve ([] models an
`ApiError` on the initial call). -/
def dropbox_image_files (pages : List ListFolderPage) : List DropboxEntry :=
  match pages with
  | [] => []
  | p :: _ =>
    p.entries.filter (fun e =>
      e.isFile && supportedExtensions.contains (strLower (path_suffix e.name)))

/-- The `while result.has_more: result = dbx.files_list_folder_continue(...)`
pagination loop of `list_dropbox_folders.scan_folder`: the first page's
entries, then the next pages' entries as long as `has_more` was set. -/
def drainPages : List ListFolderPage → List DropboxEntry
  | [] => []
  | p :: rest => p.entries ++ (if p.has_more then drainPages rest else [])

/-- A well-formed page sequence as the Dropbox API serves it: every page
except the last announces a continuation (`has_more`), the last does
not. -/
def chainedPages : List ListFolderPage → Bool
  | [] => true
  | [p] => !p.has_more
  | p :: rest => p.has_more && chainedPages rest

/- ------------------------------------------------------------------
   Per-item workers
   ------------------------------------------------------------------ -/

/-- `_upload_single_file`: the Cloudinary `upload` call is the oracle
`uploadResult` (`.ok secureUrl` or `.error str(e)` for any raised
exception — network, remote-service or local I/O); the `try/except` turns
every failure into a failed outcome with the `UPLOAD_FAILED` sentinel. -/
def upload_single_file (uploadResult : Except String String)
    (file_path : String) : TransferOutcome :=
  let filename_without_ext := path_stem file_path
  match uploadResult with
  | .ok secureUrl => ⟨filename_without_ext, secureUrl, "success", none⟩
  | .error e => ⟨filename_without_ext, "UPLOAD_FAILED", "failed", some e⟩

/-- `_upload_from_dropbox_url`: first `files_get_temporary_link`
(oracle `tempLink`), then the Cloudinary upload from that URL (oracle
`uploadFromUrl`); the single `try/except` catches a failure of either
step. -/
def upload_from_dropbox_url (tempLink : Except String String)
    (uploadFromUrl : String → Except String String)
    (entryName : String) : TransferOutcome :=
  let filename_without_ext := path_stem entryName
  match tempLink with
  | .error e => ⟨filename_without_ext, "UPLOAD_FAILED", "failed", some e⟩
  | .ok url =>
    match uploadFromUrl url with
    | .ok secureUrl => ⟨filename_without_ext, secureUrl, "success", none⟩
    | .error e => ⟨filename_without_ext, "UPLOAD_FAILED", "failed", some e⟩

/- ------------------------------------------------------------------
   The batch calls
   ------------------------------------------------------------------ -/

/-- The value of one batch call: the returned result list, or an exception
escaping the method (`ValueError` from `ThreadPoolExecutor.__init__` is the
only one `upload_from_local` can raise). -/
inductive BatchCall where
  | ok (results : List TransferOutcome)
  | err (msg : String)
deriving DecidableEq

/-- `CloudinaryService.upload_from_local`.  `dirListing` is the local
filesystem oracle (`none` models `not folder_path.exists()`), `work` the
per-item worker, `order` the completion order in which `as_completed`
yields the futures.  Returns the method's result together with the
`self.upload_stats` the service object holds afterwards.  Mirrors the
source's sequencing: existence check, enumeration, empty check, stats
reset, then the pool — `ThreadPoolExecutor(max_workers=0)` raises
`ValueError` after the stats were already reset. -/
def upload_from_local (dirListing : Option (List FileEntry)) (max_workers : Int)
    (work : FileEntry → TransferOutcome) (order : List FileEntry) :
    BatchCall × TransferStats :=
  match dirListing with
  | none => (.ok [], initStats)
  | some entries =>
    let image_files := image_files_local entries
    if image_files.isEmpty then (.ok [], initStats)
    else
      let stats0 := resetStats image_files.length
      if max_workers ≤ 0 then (.err "max_workers must be greater than 0", stats0)
      else
        let r := runCompletionLoop work order stats0
        (.ok r.1, r.2)

/-- `CloudinaryService.upload_from_dropbox`.  `pages` is the Dropbox listing
oracle ([] models an `ApiError` on `files_list_folder`, which the method
turns into `return []`).  The outer `try/except Exception` swallows the
`ValueError` a non-positive `max_workers` raises, so that path also
returns `[]` — after the stats were already reset. -/
def upload_from_dropbox (pages : List ListFolderPage) (max_workers : Int)
    (work : DropboxEntry → TransferOutcome) (order : List DropboxEntry) :
    BatchCall × TransferStats :=
  let image_files := dropbox_image_files pages
  if image_files.isEmpty then (.ok [], initStats)
  else
    let stats0 := resetStats image_files.length
    if max_workers ≤ 0 then (.ok [], stats0)
    else
      let r := runCompletionLoop work order stats0
      (.ok r.1, r.2)

/- ------------------------------------------------------------------
   `services/database_service.py`: characteristic lookups
   ------------------------------------------------------------------ -/

/-- The whitespace normalisation every budgeted characteristic getter
applies: `value.strip().replace('\n', ' ').replace('\r', ' ')
.replace('  ', ' ')` (one left-to-right pass each, so longer blank runs
are only halved, not fully collapsed). -/
def normalize_characteristic (v : String) : String :=
  py_replace (py_replace (py_replace (py_strip v) "\n" " ") "\r" " ") "  " " "

/-- The shared body of `get_capacity_from_product`, `get_dlc_from_product`,
`get_weight_from_product`, `get_dimensions_from_product`,
`get_motif_from_product` and `get_ddm_from_product`: the candidates are the
rows of the characteristic query in `ORDER BY pgc.position` order (each
getter has its own label pattern in the SQL `WHERE`, hence its own candidate
list); `LIMIT 1` keeps the head, and `result[0].strip() if result and
result[0] else ''` strips it.  `product_group_id == 0` (or missing) skips
the query. -/
def first_characteristic (product_group_id : Int) (candidates : List String) : String :=
  if product_group_id = 0 then ""
  else
    match candidates.head? with
    | none => ""
    | some v => if v = "" then "" else py_strip v

def get_capacity_from_product (product_group_id : Int) (candidates : List String) : String :=
  first_characteristic product_group_id candidates

def get_dlc_from_product (product_group_id : Int) (candidates : List String) : String :=
  first_characteristic product_group_id candidates

def get_weight_from_product (product_group_id : Int) (candidates : List String) : String :=
  first_characteristic product_group_id candidates

def get_dimensions_from_product (product_group_id : Int) (candidates : List String) : String :=
  first_characteristic product_group_id candidates

def get_motif_from_product (product_group_id : Int) (candidates : List String) : String :=
  first_characteristic product_group_id candidates

def get_ddm_from_product (product_group_id : Int) (candidates : List String) : String :=
  first_characteristic product_group_id candidates

/-- The truncation idiom of the budgeted getters:
`text[:budget] + "..." if len(text) > budget else text`. -/
def truncate_with_marker (budget : Nat) (text : String) : String :=
  if text.toList.length > budget then ⟨text.toList.take budget⟩ ++ "..." else text

/-- `get_ingredients_from_product`: first candidate by position (`LIMIT 1`),
normalised, budget 1000. -/
def get_ingredients_from_product (product_group_id : Int) (candidates : List String) : String :=
  if product_group_id = 0 then ""
  else
    match candidates.head? with
    | none => ""
    | some v =>
      if v = "" then "" else truncate_with_marker 1000 (normalize_characteristic v)

/-- `get_color_from_product`: first candidate by position, normalised,
budget 500. -/
def get_color_from_product (product_group_id : Int) (candidates : List String) : String :=
  if product_group_id = 0 then ""
  else
    match candidates.head? with
    | none => ""
    | some v =>
      if v = "" then "" else truncate_with_marker 500 (normalize_characteristic v)

/-- `get_care_advice_from_product`: first candidate by position, normalised,
budget 500. -/
def get_care_advice_from_product (product_group_id : Int) (candidates : List String) : String :=
  if product_group_id = 0 then ""
  else
    match candidates.head? with
    | none => ""
    | some v =>
      if v = "" then "" else truncate_with_marker 500 (normalize_characteristic v)

/-- `get_composition_from_product`: `LIMIT 3` keeps the first three
candidates, `results[composition_number - 1]` picks the requested one
(the code calls it with 1, 2 and 3), normalised, budget 200. -/
def get_composition_from_product (product_group_id : Int) (candidates : List String)
    (composition_number : Nat) : String :=
  if product_group_id = 0 then ""
  else
    let results := candidates.take 3
    if results ≠ [] ∧ composition_number ≤ results.length then
      truncate_with_marker 200
        (normalize_characteristic (results.getD (composition_number - 1) ""))
    else ""

/- ------------------------------------------------------------------
   `BazarchicDB.export_comprehensive_csv`: the code-search CSV bodies
   ------------------------------------------------------------------ -/

/-- One row of the base SQL query (the `products` dict rows), with the
characteristic candidate lists the per-product getters would fetch for its
`product_group_id`. -/
structure ProductRow where
  categorie : String
  shop_sku : String
  titre : String
  marque : String
  description_longue : String
  ean : String
  image_principale : String
  image_secondaire : String
  image3 : String
  image4 : String
  image5 : String
  image6 : String
  image7 : String
  image8 : String
  image9 : String
  image10 : String
  produit_parent : String
  id_rattachement : String
  garantie_commerciale : String
  eco_responsable : String
  metrage : String
  produit_ou_service : String
  bzc : String
  poids_colis : String
  taille_unique : String
  product_group_id : Int
  capacityCands : List String
  dimensionsCands : List String
  weightCands : List String
  colorCands : List String
  motifCands : List String
  dlcCands : List String
  ddmCands : List String
  ingredientsCands : List String
  careCands : List String
  compositionCands : List String
deriving DecidableEq

/-- The `display_headers` list (37 columns). -/
def display_headers : List String :=
  ["Category", "Shop sku", "Titre du produit", "Marque", "Description Longue",
   "EAN", "Couleur commercial", "Image principale", "image secondaire",
   "Image 3", "Image 4", "Image 5", "Image 6", "Image 7", "Image 8",
   "Image 9", "Image_10", "Produit Parent (identification)", "Id de rattachement",
   "Composition 1", "Composition 2", "Composition 3", "Conseil d'entretien",
   "Capacité", "Dimensions", "DLC (Date limite de consommation)",
   "DDM (Date de durabilité minimale)", "Ingrédients", "Poids net du produit",
   "Motif", "Garantie commerciale", "Eco-responsable", "Métrage ? (oui /non)",
   "Produit ou Service", "BZC ( à ne pas remplir )", "Poids du colis (kg)",
   "Taille unique"]

/-- `write_product_row`: the 37 data cells, in the source's order, with the
description run through `clean_html` and the characteristics resolved by
the getters. -/
def write_product_row (p : ProductRow) : List String :=
  [p.categorie, p.shop_sku, p.titre, p.marque,
   clean_html (some p.description_longue), p.ean,
   get_color_from_product p.product_group_id p.colorCands,
   p.image_principale, p.image_secondaire, p.image3, p.image4, p.image5,
   p.image6, p.image7, p.image8, p.image9, p.image10,
   p.produit_parent, p.id_rattachement,
   get_composition_from_product p.product_group_id p.compositionCands 1,
   get_composition_from_product p.product_group_id p.compositionCands 2,
   get_composition_from_product p.product_group_id p.compositionCands 3,
   get_care_advice_from_product p.product_group_id p.careCands,
   get_capacity_from_product p.product_group_id p.capacityCands,
   get_dimensions_from_product p.product_group_id p.dimensionsCands,
   get_dlc_from_product p.product_group_id p.dlcCands,
   get_ddm_from_product p.product_group_id p.ddmCands,
   get_ingredients_from_product p.product_group_id p.ingredientsCands,
   get_weight_from_product p.product_group_id p.weightCands,
   get_motif_from_product p.product_group_id p.motifCands,
   p.garantie_commerciale, p.eco_responsable, p.metrage,
   p.produit_ou_service, p.bzc, p.poids_colis, p.taille_unique]

/-- The matching test that decides which products belong to a requested
code: exact equality on the product's `EAN` column for an EAN search;
case-insensitive bidirectional substring containment on the `Shop sku`
column for a REF search (`input_code.lower() in code_key.lower() or
code_key.lower() in input_code.lower()`). -/
def code_matches_product (refSearch : Bool) (code : String) (p : ProductRow) : Bool :=
  if refSearch then
    pyIn (strLower code) (strLower p.shop_sku) || pyIn (strLower p.shop_sku) (strLower code)
  else
    p.ean == code

/-- `found_by_code[code]`: the products grouped under a requested code, in
product order (the grouping loop scans `products` and appends). -/
def found_products_for (refSearch : Bool) (code : String)
    (products : List ProductRow) : List ProductRow :=
  products.filter (code_matches_product refSearch code)

/-- `display_headers.index('EAN')`. -/
def eanColIdx : Nat := display_headers.indexOf "EAN"

/-- `display_headers.index('Shop sku')`. -/
def skuColIdx : Nat := display_headers.indexOf "Shop sku"

/-- The search column an empty row carries its code in: `EAN` for an EAN
search, `Shop sku` for a REF search. -/
def searchColIdx (refSearch : Bool) : Nat :=
  if refSearch then skuColIdx else eanColIdx

/-- The `empty_row` built for an unmatched code: one `''` per display
header, then `empty_row[0] = ''` and the code written into the search
column. -/
def empty_row_for (colIdx : Nat) (code : String) : List String :=
  ((display_headers.map (fun _ => "")).set 0 "").set colIdx code

/-- The data rows of `ALL_products.csv` (after its two header rows): for
each requested code in the order given, the matched products' rows, or one
empty row carrying the code. -/
def all_file_rows (refSearch : Bool) (codes : List String)
    (products : List ProductRow) : List (List String) :=
  codes.flatMap (fun code =>
    let g := found_products_for refSearch code products
    if g.isEmpty then [empty_row_for (searchColIdx refSearch) code]
    else g.map write_product_row)

/-- The data rows of `FOUND_products.csv`: only the matched codes, each
contributing one row per matching product. -/
def found_file_rows (refSearch : Bool) (codes : List String)
    (products : List ProductRow) : List (List String) :=
  codes.flatMap (fun code =>
    (found_products_for refSearch code products).map write_product_row)

/-- The data rows of `NOT_FOUND_products.csv`: exactly the unmatched codes,
one empty row each. -/
def not_found_file_rows (refSearch : Bool) (codes : List String)
    (products : List ProductRow) : List (List String) :=
  (codes.filter (fun code => (found_products_for refSearch code products).isEmpty)).map
    (empty_row_for (searchColIdx refSearch))

/-- The `clean_codes` list: stripped, empties dropped. -/
def clean_codes_of (raw : List String) : List String :=
  (raw.map py_strip).filter (fun c => c ≠ "")

/- ------------------------------------------------------------------
   Engine lemmas shared by the claims
   ------------------------------------------------------------------ -/

theorem runCompletionLoop_results (work : α → TransferOutcome)
    (l : List α) (s : TransferStats) :
    (runCompletionLoop work l s).1 = l.map work := by
  induction l generalizing s with
  | nil => rfl
  | cons x xs ih => simp [runCompletionLoop, ih]

theorem runCompletionLoop_total (work : α → TransferOutcome)
    (l : List α) (s : TransferStats) :
    (runCompletionLoop work l s).2.total = s.total := by
  induction l generalizing s with
  | nil => rfl
  | cons x xs ih =>
    simp only [runCompletionLoop, ih]
    unfold updateStats
    split <;> rfl

theorem runCompletionLoop_sum (work : α → TransferOutcome)
    (l : List α) (s : TransferStats) :
    (runCompletionLoop work l s).2.successful + (runCompletionLoop work l s).2.failed =
      s.successful + s.failed + l.length := by
  induction l generalizing s with
  | nil => rfl
  | cons x xs ih =>
    simp only [runCompletionLoop, ih, List.length_cons]
    unfold updateStats
    split <;> simp <;> omega

theorem runCompletionLoop_errors (work : α → TransferOutcome)
    (l : List α) (s : TransferStats) :
    (runCompletionLoop work l s).2.errors.length ≤ max s.errors.length 10 := by
  induction l generalizing s with
  | nil => exact Nat.le_max_left _ _
  | cons x xs ih =>
    refine le_trans (ih (updateStats s (work x))) ?_
    unfold updateStats
    split
    · exact le_rfl
    · by_cases hlen : s.errors.length < 10
      · simp only [hlen, if_true, List.length_append, List.length_singleton]
        omega
      · simp only [hlen, if_false]
        exact le_rfl

/- Concrete batch used to instantiate the hypotheses of the engine claims. -/

def demoEntries : List FileEntry :=
  [⟨"a.jpg", true⟩, ⟨"b.png", true⟩, ⟨"c.txt", true⟩]

/-- A worker oracle under which `b.png` fails with a network error and the
others succeed. -/
def demoWork : FileEntry → TransferOutcome := fun f =>
  upload_single_file
    (if f.name == "b.png" then .error "network timeout"
     else .ok ("https://res.cloudinary.example/" ++ path_stem f.name))
    f.name

/-- A completion order in which the later-submitted image finishes first. -/
def demoOrder : List FileEntry := [⟨"b.png", true⟩, ⟨"a.jpg", true⟩]

/-- C1.  For every directory listing and every completion order of the
enumerated items (any permutation — any item may finish before any other),
`upload_from_local` returns one `TransferOutcome` per enumerated item: the
result list is exactly the outcomes of the completion order, its length
equals the number of enumerated items, and as a multiset it is one worker
outcome per enumerated item (no duplicates, no drops); the same holds for
`upload_from_dropbox` over its enumerated first-page items.  The returned
list being the fold over the whole completion order models that the call
returns only after every item has completed.  A concrete two-image batch
with a reversed completion order is included. -/
theorem transfer_one_outcome_per_item :
    (∀ (entries : List FileEntry) (mw : Int) (work : FileEntry → TransferOutcome)
        (order : List FileEntry),
      order.Perm (image_files_local entries) → 1 ≤ mw →
      (upload_from_local (some entries) mw work order).1 = .ok (order.map work) ∧
      (order.map work).length = (image_files_local entries).length ∧
      (order.map work).Perm ((image_files_local entries).map work)) ∧
    (∀ (pages : List ListFolderPage) (mw : Int) (work : DropboxEntry → TransferOutcome)
        (order : List DropboxEntry),
      order.Perm (dropbox_image_files pages) → 1 ≤ mw →
      (upload_from_dropbox pages mw work order).1 = .ok (order.map work) ∧
      (order.map work).length = (dropbox_image_files pages).length ∧
      (order.map work).Perm ((dropbox_image_files pages).map work)) ∧
    (upload_from_local (some demoEntries) 10 demoWork demoOrder).1 =
      .ok [demoWork ⟨"b.png", true⟩, demoWork ⟨"a.jpg", true⟩] ∧
    demoOrder.Perm (image_files_local demoEntries) := by
  have hmain : ∀ (α : Type) (imgs : List α) (mw : Int)
      (work : α → TransferOutcome) (order : List α),
      order.Perm imgs →
      (order.map work).length = imgs.length ∧
      (order.map work).Perm (imgs.map work) := by
    intro α imgs mw work order hperm
    exact ⟨by simpa using hperm.length_eq, hperm.map work⟩
  refine ⟨?_, ?_, by decide, by decide⟩
  · intro entries mw work order hperm hmw
    have h := hmain _ _ mw work order hperm
    refine ⟨?_, h.1, h.2⟩
    by_cases hempty : (image_files_local entries).isEmpty
    · have hnil : image_files_local entries = [] := by
        simpa [List.isEmpty_iff] using hempty
      have horder : order = [] := by
        have := hperm
        rw [hnil] at this
        exact this.eq_nil
      simp [upload_from_local, hempty, horder]
    · have hpos : ¬ mw ≤ 0 := by omega
      simp [upload_from_local, hempty, hpos, runCompletionLoop_results]
  · intro pages mw work order hperm hmw
    have h := hmain _ _ mw work order hperm
    refine ⟨?_, h.1, h.2⟩
    by_cases hempty : (dropbox_image_files pages).isEmpty
    · have hnil : dropbox_image_files pages = [] := by
        simpa [List.isEmpty_iff] using hempty
      have horder : order = [] := by
        have := hperm
        rw [hnil] at this
        exact this.eq_nil
      simp [upload_from_dropbox, hempty, horder]
    · have hpos : ¬ mw ≤ 0 := by omega
      simp [upload_from_dropbox, hempty, hpos, runCompletionLoop_results]

/-- C2.  Throughout a batch the shared stats aggregate satisfies
`successful + failed <= total` with at most 10 error samples: after any
prefix of the completion order (the state visible between two lock-guarded
updates) the invariant holds, and once `upload_from_local` (or
`upload_from_dropbox`) returns, `successful + failed = total`, for any
worker count >= 1.  (Every mutation of the aggregate happens in
`updateStats`, the image of the lock-guarded block, which the fold applies
atomically.)  A concrete batch instantiates the hypotheses. -/
theorem transfer_stats_invariant :
    (∀ (entries : List FileEntry) (work : FileEntry → TransferOutcome)
        (order : List FileEntry) (k : Nat),
      order.Perm (image_files_local entries) →
      (runCompletionLoop work (order.take k)
          (resetStats (image_files_local entries).length)).2.successful +
        (runCompletionLoop work (order.take k)
          (resetStats (image_files_local entries).length)).2.failed ≤
        (runCompletionLoop work (order.take k)
          (resetStats (image_files_local entries).length)).2.total ∧
      (runCompletionLoop work (order.take k)
          (resetStats (image_files_local entries).length)).2.errors.length ≤ 10) ∧
    (∀ (entries : List FileEntry) (mw : Int) (work : FileEntry → TransferOutcome)
        (order : List FileEntry),
      order.Perm (image_files_local entries) → 1 ≤ mw →
      (upload_from_local (some entries) mw work order).2.successful +
        (upload_from_local (some entries) mw work order).2.failed =
        (upload_from_local (some entries) mw work order).2.total ∧
      (upload_from_local (some entries) mw work order).2.errors.length ≤ 10) ∧
    (∀ (pages : List ListFolderPage) (mw : Int) (work : DropboxEntry → TransferOutcome)
        (order : List DropboxEntry),
      order.Perm (dropbox_image_files pages) → 1 ≤ mw →
      (upload_from_dropbox pages mw work order).2.successful +
        (upload_from_dropbox pages mw work order).2.failed =
        (upload_from_dropbox pages mw work order).2.total ∧
      (upload_from_dropbox pages mw work order).2.errors.length ≤ 10) ∧
    ((upload_from_local (some demoEntries) 10 demoWork demoOrder).2 =
      ⟨2, 1, 1, [some "network timeout"]⟩ ∧
     demoOrder.Perm (image_files_local demoEntries)) := by
  have hproj : ∀ n : Nat, (resetStats n).successful = 0 ∧ (resetStats n).failed = 0 ∧
      (resetStats n).total = n := fun n => ⟨rfl, rfl, rfl⟩
  have herr : ∀ (α : Type) (work : α → TransferOutcome) (l : List α) (n : Nat),
      (runCompletionLoop work l (resetStats n)).2.errors.length ≤ 10 := by
    intro α work l n
    simpa [resetStats] using runCompletionLoop_errors work l (resetStats n)
  refine ⟨?_, ?_, ?_, by decide, by decide⟩
  · intro entries work order k hperm
    refine ⟨?_, herr _ _ _ _⟩
    have hs := runCompletionLoop_sum work (order.take k)
      (resetStats (image_files_local entries).length)
    have ht := runCompletionLoop_total work (order.take k)
      (resetStats (image_files_local entries).length)
    have hlen : (order.take k).length ≤ (image_files_local entries).length := by
      have h4 := hperm.length_eq
      have h5 := List.length_take k order
      omega
    obtain ⟨h1, h2, h3⟩ := hproj (image_files_local entries).length
    omega
  · intro entries mw work order hperm hmw
    by_cases hempty : (image_files_local entries).isEmpty
    · have hnil : image_files_local entries = [] := by
        simpa [List.isEmpty_iff] using hempty
      simp [upload_from_local, hempty, initStats]
    · have hpos : ¬ mw ≤ 0 := by omega
      have hs := runCompletionLoop_sum work order
        (resetStats (image_files_local entries).length)
      have ht := runCompletionLoop_total work order
        (resetStats (image_files_local entries).length)
      have hlen : order.length = (image_files_local entries).length := hperm.length_eq
      simp only [upload_from_local, hempty, hpos, if_false, Bool.false_eq_true]
      refine ⟨?_, herr _ _ _ _⟩
      obtain ⟨h1, h2, h3⟩ := hproj (image_files_local entries).length
      omega
  · intro pages mw work order hperm hmw
    by_cases hempty : (dropbox_image_files pages).isEmpty
    · simp [upload_from_dropbox, hempty, initStats]
    · have hpos : ¬ mw ≤ 0 := by omega
      have hs := runCompletionLoop_sum work order
        (resetStats (dropbox_image_files pages).length)
      have ht := runCompletionLoop_total work order
        (resetStats (dropbox_image_files pages).length)
      have hlen : order.length = (dropbox_image_files pages).length := hperm.length_eq
      simp only [upload_from_dropbox, hempty, hpos, if_false, Bool.false_eq_true]
      refine ⟨?_, herr _ _ _ _⟩
      obtain ⟨h1, h2, h3⟩ := hproj (dropbox_image_files pages).length
      omega

/-- C3.  Every failure of a single item's upload — whatever exception the
Cloudinary call or, for the Dropbox path, the temporary-link fetch raises —
is caught inside the worker and becomes a failed `TransferOutcome` with the
`UPLOAD_FAILED` sentinel URL and the failure description as its error
message; an error message is present exactly when the status is `failed`;
and a failed item never aborts the batch: the completion loop still
records one outcome for every item handed to it, whatever the workers
return. -/
theorem worker_failure_isolation :
    (∀ (e file_path : String),
      upload_single_file (.error e) file_path =
        ⟨path_stem file_path, "UPLOAD_FAILED", "failed", some e⟩) ∧
    (∀ (e entryName : String) (uploadFromUrl : String → Except String String),
      upload_from_dropbox_url (.error e) uploadFromUrl entryName =
        ⟨path_stem entryName, "UPLOAD_FAILED", "failed", some e⟩) ∧
    (∀ (url e entryName : String),
      upload_from_dropbox_url (.ok url) (fun _ => .error e) entryName =
        ⟨path_stem entryName, "UPLOAD_FAILED", "failed", some e⟩) ∧
    (∀ (r : Except String String) (file_path : String),
      (upload_single_file r file_path).error.isSome = true ↔
        (upload_single_file r file_path).status = "failed") ∧
    (∀ (link : Except String String) (uploadFromUrl : String → Except String String)
        (entryName : String),
      (upload_from_dropbox_url link uploadFromUrl entryName).error.isSome = true ↔
        (upload_from_dropbox_url link uploadFromUrl entryName).status = "failed") ∧
    (∀ (α : Type) (work : α → TransferOutcome) (order : List α) (s : TransferStats),
      (runCompletionLoop work order s).1 = order.map work) := by
  refine ⟨fun e fp => rfl, fun e en u => rfl, fun url e en => ?_, ?_, ?_, ?_⟩
  · simp [upload_from_dropbox_url]
  · intro r fp
    cases r <;> simp [upload_single_file]
  · intro link u en
    cases link with
    | error e => simp [upload_from_dropbox_url]
    | ok url =>
      cases h : u url <;> simp [upload_from_dropbox_url, h]
  · intro α work order s
    exact runCompletionLoop_results work order s

/-- Filtering keeps a replicated element the predicate accepts. -/
theorem filter_replicate_of_pos {α : Type} (p : α → Bool) (x : α) (h : p x = true) :
    ∀ n : Nat, (List.replicate n x).filter p = List.replicate n x := by
  intro n
  induction n with
  | zero => rfl
  | succ m ih => simp [List.replicate_succ, List.filter_cons, h, ih]

/-- Scenario C's paginated listing: 500 image files on the first page (a
continuation announced), 37 on the second (final) page. -/
def c4_pages : List ListFolderPage :=
  [⟨List.replicate 500 ⟨"img.jpg", true⟩, true⟩,
   ⟨List.replicate 37 ⟨"img.jpg", true⟩, false⟩]

/-- The transfer enumeration on the scenario keeps the 500 first-page
entries. -/
theorem dropbox_image_files_c4_length : (dropbox_image_files c4_pages).length = 500 := by
  have e1 : dropbox_image_files c4_pages =
      (List.replicate 500 (⟨"img.jpg", true⟩ : DropboxEntry)).filter (fun e =>
        e.isFile && supportedExtensions.contains (strLower (path_suffix e.name))) := rfl
  rw [e1, filter_replicate_of_pos _ _ (by decide) 500, List.length_replicate]

/-- Draining both pages of the scenario yields all 537 entries. -/
theorem drainPages_c4_length : (drainPages c4_pages).length = 537 := by
  have e2 : drainPages c4_pages =
      List.replicate 500 (⟨"img.jpg", true⟩ : DropboxEntry) ++
        (List.replicate 37 ⟨"img.jpg", true⟩ ++ []) := rfl
  rw [e2]
  simp only [List.append_nil, List.length_append, List.length_replicate]

/-- Unfolding step of the pagination loop while a continuation is
announced. -/
theorem drainPages_cons_of_more (a : ListFolderPage) (l : List ListFolderPage)
    (ha : a.has_more = true) : drainPages (a :: l) = a.entries ++ drainPages l := by
  simp [drainPages, ha]

/-- C4 counterexample.  On a two-page listing of 500 + 37 supported image
files joined by a continuation cursor, the transfer path's enumeration
(`upload_from_dropbox`) yields only the 500 first-page descriptors, not
537: the claimed cursor iteration does not happen there.  Draining every
page — what `list_dropbox_folders.scan_folder`'s loop does — would have
yielded all 537. -/
theorem dropbox_pagination_counterexample :
    (dropbox_image_files c4_pages).length = 500 ∧
    (dropbox_image_files c4_pages).length ≠ 537 ∧
    (drainPages c4_pages).length = 537 := by
  have h1 := dropbox_image_files_c4_length
  have h2 := drainPages_c4_length
  exact ⟨h1, by omega, h2⟩

/-- C4 amended.  The transfer path's remote enumeration uses only the first
listing page: continuation pages never change the enumerated set, which is
exactly the extension-filtered first-page entries.  The cursor iteration
the claim describes exists in the companion folder-lister
(`scan_folder`'s `while has_more` loop), which drains a well-chained page
sequence completely — every page's entries, each exactly once — as the
537-descriptor scenario illustrates. -/
theorem dropbox_first_page_enumeration :
    (∀ (p : ListFolderPage) (rest rest' : List ListFolderPage),
      dropbox_image_files (p :: rest) = dropbox_image_files (p :: rest')) ∧
    (∀ (p : ListFolderPage) (rest : List ListFolderPage),
      dropbox_image_files (p :: rest) = p.entries.filter (fun e =>
        e.isFile && supportedExtensions.contains (strLower (path_suffix e.name)))) ∧
    (∀ pages : List ListFolderPage, chainedPages pages = true →
      drainPages pages = (pages.map (fun p => p.entries)).flatten) ∧
    chainedPages c4_pages = true ∧
    (drainPages c4_pages).length = 537 := by
  refine ⟨fun p r r' => rfl, fun p r => rfl, ?_, by decide, drainPages_c4_length⟩
  intro pages
  induction pages with
  | nil => intro _; rfl
  | cons p rest ih =>
    intro hchain
    cases rest with
    | nil =>
      cases hmore : p.has_more <;> simp [drainPages, hmore]
    | cons q rest' =>
      have h1 : p.has_more = true ∧ chainedPages (q :: rest') = true := by
        simpa [chainedPages, Bool.and_eq_true] using hchain
      rw [drainPages_cons_of_more p (q :: rest') h1.1, ih h1.2]
      simp

/-- C5 counterexample.  Calling `upload_from_local` on a folder holding one
image with `max_workers = 0` does raise (`ThreadPoolExecutor` rejects the
value), but not immediately and not without partial work: enumeration has
already run and the shared stats were already reset for the batch —
`total` is 1, not the untouched `initStats` the claim's "no stats
mutation, no enumeration side effects" requires. -/
theorem worker_count_zero_counterexample :
    (upload_from_local (some [⟨"a.jpg", true⟩]) 0 demoWork []).1 =
      .err "max_workers must be greater than 0" ∧
    (upload_from_local (some [⟨"a.jpg", true⟩]) 0 demoWork []).2 ≠ initStats ∧
    (upload_from_local (some [⟨"a.jpg", true⟩]) 0 demoWork []).2.total = 1 := by
  refine ⟨rfl, ?_, rfl⟩
  decide

/-- C5 amended.  A non-positive worker count on a non-empty local batch is
rejected with the pool's `ValueError` ("max_workers must be greater than
0"), but only after enumeration and the stats reset (`total` already set to
the enumerated count); no upload is attempted — the call's value does not
depend on the worker oracle or on any completion order.  On the Dropbox
path the outer `try/except` swallows that same `ValueError`, so the call
returns an empty result list there, again after the stats reset. -/
theorem worker_count_nonpositive_behavior :
    (∀ (entries : List FileEntry) (mw : Int) (work : FileEntry → TransferOutcome)
        (order : List FileEntry),
      mw ≤ 0 → image_files_local entries ≠ [] →
      upload_from_local (some entries) mw work order =
        (.err "max_workers must be greater than 0",
         resetStats (image_files_local entries).length)) ∧
    (∀ (entries : List FileEntry) (mw : Int)
        (w w' : FileEntry → TransferOutcome) (order order' : List FileEntry),
      mw ≤ 0 →
      upload_from_local (some entries) mw w order =
        upload_from_local (some entries) mw w' order') ∧
    (∀ (pages : List ListFolderPage) (mw : Int) (work : DropboxEntry → TransferOutcome)
        (order : List DropboxEntry),
      mw ≤ 0 → dropbox_image_files pages ≠ [] →
      upload_from_dropbox pages mw work order =
        (.ok [], resetStats (dropbox_image_files pages).length)) ∧
    (upload_from_local (some [⟨"a.jpg", true⟩]) 0 demoWork []).2.total = 1 := by
  refine ⟨?_, ?_, ?_, rfl⟩
  · intro entries mw work order hmw hne
    have hempty : ¬ (image_files_local entries).isEmpty := by
      simpa [List.isEmpty_iff] using hne
    simp [upload_from_local, hempty, hmw]
  · intro entries mw w w' order order' hmw
    by_cases hempty : (image_files_local entries).isEmpty <;>
      simp [upload_from_local, hempty, hmw]
  · intro pages mw work order hmw hne
    have hempty : ¬ (dropbox_image_files pages).isEmpty := by
      simpa [List.isEmpty_iff] using hne
    simp [upload_from_dropbox, hempty, hmw]

/-- C6 counterexample.  When the local directory does not exist
(`not folder_path.exists()`), `upload_from_local` neither raises nor
signals NotFound: it returns normally with an empty result list (and the
stats untouched), i.e. the batch "succeeds with an empty result" — exactly
what the claim rules out. -/
theorem missing_folder_counterexample :
    upload_from_local none 10 demoWork [] = (.ok [], initStats) := rfl

/-- C6 amended.  A missing local directory makes the batch return an empty
result list (a printed error, no NotFound failure), for every worker count,
worker oracle and completion order; when the directory exists, the
enumerated items are exactly its immediate entries that are regular files
whose lowercased extension lies in
{.jpg, .jpeg, .png, .gif, .bmp, .webp, .svg} — the filter is
case-insensitive, as the uppercase `.JPG` instance shows. -/
theorem local_enumeration_behavior :
    (∀ (mw : Int) (work : FileEntry → TransferOutcome) (order : List FileEntry),
      upload_from_local none mw work order = (.ok [], initStats)) ∧
    (∀ (entries : List FileEntry) (f : FileEntry),
      f ∈ image_files_local entries ↔
        f ∈ entries ∧ f.isFile = true ∧
          supportedExtensions.contains (strLower (path_suffix f.name)) = true) ∧
    image_files_local [⟨"photo.JPG", true⟩, ⟨"notes.txt", true⟩, ⟨"sub.png", false⟩] =
      [⟨"photo.JPG", true⟩] := by
  refine ⟨fun mw w o => rfl, ?_, by decide⟩
  intro entries f
  simp [image_files_local, List.mem_filter, Bool.and_eq_true]

/-- A product row whose columns are all empty (`product_group_id = 0`, no
characteristic candidates); concrete scenarios override single fields. -/
def blankProduct : ProductRow :=
  ⟨"", "", "", "", "", "", "", "", "", "", "", "", "", "", "", "", "", "",
   "", "", "", "", "", "", "", 0, [], [], [], [], [], [], [], [], [], []⟩

/-- The one matching product of Scenario D: its EAN is `111`. -/
def scenarioProduct : ProductRow := { blankProduct with ean := "111", shop_sku := "SKU-111" }

/-- Scenario D's requested EAN codes. -/
def scenarioCodes : List String := ["111", "222"]

/-- Each searched code's contribution to the `ALL` body: its matched
products' rows, or one empty row carrying the code. -/
theorem all_file_rows_cons (refSearch : Bool) (c : String) (codes : List String)
    (products : List ProductRow) :
    all_file_rows refSearch (c :: codes) products =
      (if found_products_for refSearch c products = []
       then [empty_row_for (searchColIdx refSearch) c]
       else (found_products_for refSearch c products).map write_product_row) ++
        all_file_rows refSearch codes products := by
  by_cases h : found_products_for refSearch c products = [] <;>
    simp [all_file_rows, List.flatMap_cons, h]

/-- Row conservation across the three files: every searched code lands
either in FOUND (its product rows) or in NOT_FOUND (one empty row), and ALL
is their disjoint union. -/
theorem all_rows_split (refSearch : Bool) (codes : List String)
    (products : List ProductRow) :
    (all_file_rows refSearch codes products).length =
      (found_file_rows refSearch codes products).length +
        (not_found_file_rows refSearch codes products).length := by
  induction codes with
  | nil => rfl
  | cons c codes ih =>
    by_cases h : found_products_for refSearch c products = []
    · simp [all_file_rows, found_file_rows, not_found_file_rows,
        List.flatMap_cons, List.filter_cons, h, ih,
        List.length_append] at ih ⊢
      omega
    · have hne : (found_products_for refSearch c products).isEmpty = false := by
        simpa [List.isEmpty_iff] using h
      simp [all_file_rows, found_file_rows, not_found_file_rows,
        List.flatMap_cons, List.filter_cons, h, hne, ih,
        List.length_append] at ih ⊢
      omega

/-- C7.  For a code-list search (EAN mode shown; the grouping is the
source's `found_by_code`), the three CSV bodies satisfy: the ALL body is,
code by code in the order given, the matched products' rows or one empty
row carrying the code; its row count is exactly FOUND's plus NOT_FOUND's;
every FOUND row is the row of some product matching a requested code
(possibly several rows per code); the NOT_FOUND body holds exactly the
unmatched codes, one empty row each; an empty row is 37 empty cells except
for the code in the EAN column (index 5); and Scenario D
(codes `111`, `222`, only `111` matching) produces the claimed 2/1/1
rows. -/
theorem code_search_export_structure :
    (∀ (c : String) (codes : List String) (products : List ProductRow),
      all_file_rows false (c :: codes) products =
        (if found_products_for false c products = []
         then [empty_row_for eanColIdx c]
         else (found_products_for false c products).map write_product_row) ++
          all_file_rows false codes products) ∧
    (∀ (codes : List String) (products : List ProductRow),
      (all_file_rows false codes products).length =
        (found_file_rows false codes products).length +
          (not_found_file_rows false codes products).length) ∧
    (∀ (codes : List String) (products : List ProductRow) (row : List String),
      row ∈ found_file_rows false codes products →
        ∃ c ∈ codes, ∃ p ∈ products, p.ean = c ∧ row = write_product_row p) ∧
    (∀ (codes : List String) (products : List ProductRow) (row : List String),
      row ∈ not_found_file_rows false codes products ↔
        ∃ c ∈ codes, found_products_for false c products = [] ∧
          row = empty_row_for eanColIdx c) ∧
    (∀ c : String,
      empty_row_for eanColIdx c = ["", "", "", "", "", c] ++ List.replicate 31 "") ∧
    (all_file_rows false scenarioCodes [scenarioProduct] =
        [write_product_row scenarioProduct, empty_row_for eanColIdx "222"] ∧
      found_file_rows false scenarioCodes [scenarioProduct] =
        [write_product_row scenarioProduct] ∧
      not_found_file_rows false scenarioCodes [scenarioProduct] =
        [empty_row_for eanColIdx "222"] ∧
      (empty_row_for eanColIdx "222").getD 5 "" = "222") := by
  refine ⟨fun c codes products => all_file_rows_cons false c codes products,
    fun codes products => all_rows_split false codes products,
    ?_, ?_, fun c => rfl, rfl, rfl, rfl, rfl⟩
  · intro codes products row h
    simp only [found_file_rows, List.mem_flatMap, List.mem_map, found_products_for,
      List.mem_filter, code_matches_product, Bool.false_eq_true, if_false, beq_iff_eq] at h
    obtain ⟨c, hc, p, ⟨hp, heq⟩, hrow⟩ := h
    exact ⟨c, hc, p, hp, heq, hrow.symm⟩
  · intro codes products row
    simp only [not_found_file_rows, List.mem_map, List.mem_filter, List.isEmpty_iff]
    constructor
    · rintro ⟨c, ⟨hc, hempty⟩, hrow⟩
      exact ⟨c, hc, hempty, hrow.symm⟩
    · rintro ⟨c, hc, hempty, hrow⟩
      exact ⟨c, ⟨hc, hempty⟩, hrow.symm⟩

/-- Candidate products used to exercise the REF matching rule. -/
def refProduct1005 : ProductRow := { blankProduct with shop_sku := "1005" }

def refProduct100 : ProductRow := { blankProduct with shop_sku := "100" }

def refProduct2003 : ProductRow := { blankProduct with shop_sku := "2003" }

def refProductMixed : ProductRow := { blankProduct with shop_sku := "XABCX" }

/-- C9.  A product lands in a requested REF code's group exactly when the
lowercased input code is a substring of the lowercased `Shop sku` or vice
versa — bidirectional containment, not exact or prefix match: input `100`
matches candidate `1005`, input `1005` matches candidate `100`, input
`005` matches `1005` without being a prefix, the comparison ignores case
(`abc` matches `XABCX`), and a pair without containment (`100` vs `2003`)
does not match. -/
theorem ref_search_bidirectional_containment :
    (∀ (code : String) (p : ProductRow) (products : List ProductRow),
      p ∈ found_products_for true code products ↔
        p ∈ products ∧
          (pyIn (strLower code) (strLower p.shop_sku) ||
            pyIn (strLower p.shop_sku) (strLower code)) = true) ∧
    code_matches_product true "100" refProduct1005 = true ∧
    code_matches_product true "1005" refProduct100 = true ∧
    code_matches_product true "005" refProduct1005 = true ∧
    code_matches_product true "abc" refProductMixed = true ∧
    code_matches_product true "100" refProduct2003 = false ∧
    ("100" : String) ≠ "1005" := by
  refine ⟨?_, by decide, by decide, by decide, by decide, by decide, by decide⟩
  intro code p products
  simp [found_products_for, List.mem_filter, code_matches_product]

/-- A first-by-position candidate value of 600 characters. -/
def longValue600 : String := ⟨List.replicate 600 'x'⟩

/-- C8 counterexample.  The candidate value `"a\nb"` is 3 characters long —
far under every budget — yet `get_ingredients_from_product` returns
`"a b"`, not the original value: the getters rewrite newlines (and CR and
double spaces) before returning, so an under-budget value is not returned
verbatim. -/
theorem characteristic_verbatim_counterexample :
    ("a\nb" : String).length ≤ 1000 ∧
    get_ingredients_from_product 5 ["a\nb"] = "a b" ∧
    get_ingredients_from_product 5 ["a\nb"] ≠ "a\nb" := by
  refine ⟨by decide, by decide, by decide⟩

set_option maxRecDepth 8000 in
/-- C8 amended.  Each budgeted characteristic lookup returns at most one
value: ingredients, color and care advice use only the first candidate by
position order, composition `n` only the `n`-th of the first three.  A
value whose normalized text exceeds the field's budget — 1000 for
ingredients, 500 for color and care advice, 200 for composition — is cut
to the budget and suffixed with `...`; an under-budget value is returned
after whitespace normalization (strip, newline and carriage-return to
space, one double-space collapse pass), not verbatim.  A 600-character
value exhibits the per-field budgets. -/
theorem characteristic_lookup_truncation :
    (∀ (pgid : Int) (v : String) (rest : List String),
      get_ingredients_from_product pgid (v :: rest) =
        get_ingredients_from_product pgid [v] ∧
      get_color_from_product pgid (v :: rest) = get_color_from_product pgid [v] ∧
      get_care_advice_from_product pgid (v :: rest) =
        get_care_advice_from_product pgid [v]) ∧
    (∀ (pgid : Int) (cands : List String) (n : Nat),
      get_composition_from_product pgid cands n =
        get_composition_from_product pgid (cands.take 3) n) ∧
    (∀ (pgid : Int) (v : String) (rest : List String), pgid ≠ 0 → v ≠ "" →
      ((normalize_characteristic v).length > 1000 →
        get_ingredients_from_product pgid (v :: rest) =
          (⟨(normalize_characteristic v).toList.take 1000⟩ : String) ++ "...") ∧
      (¬ (normalize_characteristic v).length > 1000 →
        get_ingredients_from_product pgid (v :: rest) = normalize_characteristic v)) ∧
    (∀ (pgid : Int) (v : String) (rest : List String), pgid ≠ 0 → v ≠ "" →
      ((normalize_characteristic v).length > 500 →
        get_color_from_product pgid (v :: rest) =
          (⟨(normalize_characteristic v).toList.take 500⟩ : String) ++ "..." ∧
        get_care_advice_from_product pgid (v :: rest) =
          (⟨(normalize_characteristic v).toList.take 500⟩ : String) ++ "...") ∧
      (¬ (normalize_characteristic v).length > 500 →
        get_color_from_product pgid (v :: rest) = normalize_characteristic v ∧
        get_care_advice_from_product pgid (v :: rest) = normalize_characteristic v)) ∧
    (∀ (pgid : Int) (v : String) (rest : List String), pgid ≠ 0 →
      ((normalize_characteristic v).length > 200 →
        get_composition_from_product pgid (v :: rest) 1 =
          (⟨(normalize_characteristic v).toList.take 200⟩ : String) ++ "...") ∧
      (¬ (normalize_characteristic v).length > 200 →
        get_composition_from_product pgid (v :: rest) 1 = normalize_characteristic v)) ∧
    (get_ingredients_from_product 1 [longValue600] = longValue600 ∧
     get_color_from_product 1 [longValue600] =
       (⟨List.replicate 500 'x'⟩ : String) ++ "..." ∧
     get_composition_from_product 1 [longValue600] 1 =
       (⟨List.replicate 200 'x'⟩ : String) ++ "...") := by
  refine ⟨fun pgid v rest => ⟨rfl, rfl, rfl⟩, ?_, ?_, ?_, ?_, by decide, by decide, by decide⟩
  · intro pgid cands n
    simp [get_composition_from_product, List.take_take]
  · intro pgid v rest hpg hv
    constructor
    · intro hlen
      simp [get_ingredients_from_product, hpg, hv, truncate_with_marker, hlen]
    · intro hlen
      simp [get_ingredients_from_product, hpg, hv, truncate_with_marker, hlen]
  · intro pgid v rest hpg hv
    constructor
    · intro hlen
      refine ⟨?_, ?_⟩ <;>
        simp [get_color_from_product, get_care_advice_from_product, hpg, hv,
          truncate_with_marker, hlen]
    · intro hlen
      refine ⟨?_, ?_⟩ <;>
        simp [get_color_from_product, get_care_advice_from_product, hpg, hv,
          truncate_with_marker, hlen]
  · intro pgid v rest hpg
    constructor
    · intro hlen
      simp [get_composition_from_product, hpg, truncate_with_marker, hlen]
    · intro hlen
      simp [get_composition_from_product, hpg, truncate_with_marker, hlen]

/- ------------------------------------------------------------------
   Whitespace lemmas for `clean_html`
   ------------------------------------------------------------------ -/

/-- A list whose characters are all non-whitespace has no adjacent
whitespace pair. -/
theorem chain_of_nonws (l : List Char) (h : ∀ c ∈ l, isPySpace c = false) :
    l.Chain' (fun a b => ¬(isPySpace a = true ∧ isPySpace b = true)) := by
  induction l with
  | nil => simp
  | cons a l ih =>
    rw [List.chain'_cons']
    refine ⟨?_, ih (fun c hc => h c (List.mem_cons_of_mem a hc))⟩
    intro b _
    have ha := h a (List.mem_cons_self a l)
    simp [ha]

theorem mem_of_headQ {α : Type} {l : List α} {c : α} (h : l.head? = some c) : c ∈ l := by
  cases l with
  | nil => simp at h
  | cons a t =>
    simp only [List.head?_cons, Option.some.injEq] at h
    simp [← h]

theorem mem_of_lastQ {α : Type} {l : List α} {c : α} (h : l.getLast? = some c) : c ∈ l := by
  rw [← List.head?_reverse] at h
  simpa using mem_of_headQ h

theorem headQ_append_left {α : Type} (l1 l2 : List α) (h : l1 ≠ []) :
    (l1 ++ l2).head? = l1.head? := by
  cases l1 with
  | nil => exact absurd rfl h
  | cons a t => simp

theorem lastQ_append_right {α : Type} (l1 l2 : List α) (h : l2 ≠ []) :
    (l1 ++ l2).getLast? = l2.getLast? := by
  rw [← List.head?_reverse, ← List.head?_reverse l2, List.reverse_append]
  exact headQ_append_left _ _ (by simpa [List.reverse_eq_nil_iff] using h)

/-- Every word produced by Python's `split()` is nonempty and free of
whitespace (the accumulator invariant). -/
theorem splitWs_good : ∀ (l acc : List Char),
    (∀ c ∈ acc, isPySpace c = false) →
    ∀ w ∈ splitWsAux l acc, w ≠ [] ∧ ∀ c ∈ w, isPySpace c = false := by
  intro l
  induction l with
  | nil =>
    intro acc hacc w hw
    by_cases hemp : acc.isEmpty
    · simp [splitWsAux, hemp] at hw
    · simp [splitWsAux, hemp] at hw
      subst hw
      have hne : acc ≠ [] := by simpa [List.isEmpty_iff] using hemp
      exact ⟨by simpa [List.reverse_eq_nil_iff] using hne,
        fun c hc => hacc c (by simpa using hc)⟩
  | cons c cs ih =>
    intro acc hacc w hw
    by_cases hws : isPySpace c = true
    · by_cases hemp : acc.isEmpty
      · simp only [splitWsAux, hws, if_true, hemp] at hw
        exact ih [] (by simp) w hw
      · simp [splitWsAux, hws, hemp] at hw
        rcases hw with hw | hw
        · subst hw
          have hne : acc ≠ [] := by simpa [List.isEmpty_iff] using hemp
          exact ⟨by simpa [List.reverse_eq_nil_iff] using hne,
            fun d hd => hacc d (by simpa using hd)⟩
        · exact ih [] (by simp) w hw
    · simp only [splitWsAux, hws, if_false] at hw
      refine ih (c :: acc) ?_ w hw
      intro d hd
      rcases List.mem_cons.mp hd with hd | hd
      · subst hd
        simpa using hws
      · exact hacc d hd

/-- Joining a nonempty list of nonempty words yields a nonempty list. -/
theorem joinSpace_ne_nil (w : List Char) (ws : List (List Char)) (hw : w ≠ []) :
    joinSpace (w :: ws) ≠ [] := by
  cases ws with
  | nil => simpa [joinSpace] using hw
  | cons v rest => simp [joinSpace]

/-- Joining nonempty whitespace-free words with single spaces yields a list
with no adjacent whitespace pair and non-whitespace first and last
characters. -/
theorem joinSpace_spec : ∀ ws : List (List Char),
    (∀ w ∈ ws, w ≠ [] ∧ ∀ c ∈ w, isPySpace c = false) →
    (joinSpace ws).Chain' (fun a b => ¬(isPySpace a = true ∧ isPySpace b = true)) ∧
    (∀ c, (joinSpace ws).head? = some c → isPySpace c = false) ∧
    (∀ c, (joinSpace ws).getLast? = some c → isPySpace c = false)
  | [], _ => by refine ⟨by simp [joinSpace], ?_, ?_⟩ <;> intro c hc <;> simp [joinSpace] at hc
  | [w], h => by
    have hw := h w (by simp)
    have hj : joinSpace [w] = w := rfl
    rw [hj]
    exact ⟨chain_of_nonws w hw.2,
      fun c hc => hw.2 c (mem_of_headQ hc),
      fun c hc => hw.2 c (mem_of_lastQ hc)⟩
  | w :: v :: rest, h => by
    have hw := h w (by simp)
    have hrest : ∀ u ∈ v :: rest, u ≠ [] ∧ ∀ c ∈ u, isPySpace c = false :=
      fun u hu => h u (List.mem_cons_of_mem w hu)
    have IH := joinSpace_spec (v :: rest) hrest
    have hJne : joinSpace (v :: rest) ≠ [] :=
      joinSpace_ne_nil v rest (hrest v (by simp)).1
    have hjoin : joinSpace (w :: v :: rest) = w ++ ' ' :: joinSpace (v :: rest) := rfl
    rw [hjoin]
    refine ⟨?_, ?_, ?_⟩
    · rw [List.chain'_append]
      refine ⟨chain_of_nonws w hw.2, ?_, ?_⟩
      · rw [List.chain'_cons']
        refine ⟨?_, IH.1⟩
        intro b hb
        have hbns := IH.2.1 b hb
        simp [hbns]
      · intro x hx y hy
        have hxw : x ∈ w := mem_of_lastQ hx
        have := hw.2 x hxw
        simp [this]
    · intro c hc
      rw [headQ_append_left _ _ hw.1] at hc
      exact hw.2 c (mem_of_headQ hc)
    · intro c hc
      rw [lastQ_append_right _ _ (by simp)] at hc
      have hc2 : (joinSpace (v :: rest)).getLast? = some c := by
        cases hJ : joinSpace (v :: rest) with
        | nil => exact absurd hJ hJne
        | cons b tl =>
          rw [hJ] at hc
          rw [List.getLast?_cons_cons] at hc
          exact hc
      exact IH.2.2 c hc2

/-- `strip()` leaves a string untouched when its first and last characters
are not whitespace. -/
theorem strip_noop (l : List Char)
    (h1 : ∀ c, l.head? = some c → isPySpace c = false)
    (h2 : ∀ c, l.getLast? = some c → isPySpace c = false) :
    ((l.dropWhile isPySpace).reverse.dropWhile isPySpace).reverse = l := by
  cases l with
  | nil => rfl
  | cons a l =>
    have ha : isPySpace a = false := h1 a rfl
    have hd : (a :: l).dropWhile isPySpace = a :: l := by
      simp [List.dropWhile_cons, ha]
    have h3 : (a :: l).reverse.dropWhile isPySpace = (a :: l).reverse := by
      cases hr : (a :: l).reverse with
      | nil => rfl
      | cons b tl =>
        have hb : isPySpace b = false := by
          apply h2
          have hrev := List.head?_reverse (a :: l)
          rw [hr] at hrev
          simpa using hrev.symm
        simp [List.dropWhile_cons, hb]
    rw [hd, h3, List.reverse_reverse]

/-- Reading back the characters of a stripped string. -/
theorem py_strip_toList (l : List Char) :
    (py_strip ⟨l⟩).toList =
      ((l.dropWhile isPySpace).reverse.dropWhile isPySpace).reverse := rfl

/-- C10.  `clean_html` returns the empty string on `None`, empty or
whitespace-only input, and on every input its result carries no leading or
trailing whitespace and no two consecutive whitespace characters: every
internal whitespace run (newlines and tabs included) has been collapsed to
a single space by the `' '.join(text.split())` pass.  A concrete messy
description is normalised as claimed. -/
theorem clean_html_whitespace :
    clean_html none = "" ∧
    clean_html (some "") = "" ∧
    (∀ s : String, py_strip s = "" → clean_html (some s) = "") ∧
    (∀ t : Option String,
      (clean_html t).toList.Chain'
        (fun a b => ¬(isPySpace a = true ∧ isPySpace b = true)) ∧
      (∀ c, (clean_html t).toList.head? = some c → isPySpace c = false) ∧
      (∀ c, (clean_html t).toList.getLast? = some c → isPySpace c = false)) ∧
    clean_html (some " \t<p>Hello  &amp;\n\nworld</p> ") = "Hello & world" := by
  refine ⟨rfl, rfl, ?_, ?_, by decide⟩
  · intro s hs
    simp [clean_html, hs]
  · intro t
    cases t with
    | none =>
      refine ⟨by simp [clean_html], ?_, ?_⟩ <;> intro c hc <;> simp [clean_html] at hc
    | some s =>
      by_cases h0 : s = "" ∨ py_strip s = ""
      · have hres : clean_html (some s) = "" := by simp [clean_html, h0]
        refine ⟨by simp [hres], ?_, ?_⟩ <;> intro c hc <;> simp [hres] at hc
      · have hres : clean_html (some s) =
            py_strip ⟨joinSpace (splitWsAux (html_unescape (strip_tags s)).toList [])⟩ := by
          simp [clean_html, h0]
        have hgood := splitWs_good (html_unescape (strip_tags s)).toList [] (by simp)
        have hspec := joinSpace_spec _ hgood
        have hnoop := strip_noop _ hspec.2.1 hspec.2.2
        have htl : (clean_html (some s)).toList =
            (List.dropWhile isPySpace
              (List.dropWhile isPySpace
                (joinSpace (splitWsAux (html_unescape (strip_tags s)).toList
                  []))).reverse).reverse := by
          rw [hres, py_strip_toList]
        rw [htl, hnoop]
        exact hspec
